import Mathlib

/-!
Verification development for the LawScout hybrid retrieval / ranking /
generation core.

The Python sources under `src/rag_system/` are shallowly embedded below:

* `hybrid_search.py`  → `create_bm25_index`, `bm25_search`, `hybrid_search`,
  `rerank` (the BM25 scorer of the external `rank_bm25` package, which those
  functions call, is embedded as well, faithfully to its published source);
* `rag_engine.py`     → `build_qdrant_filter`, `create_cache_key`, `search`,
  `ask`;
* `usage_tracker.py`  → `GeminiUsageTracker`, `check_reset_daily`,
  `get_daily_cost`, `check_cost_limit`;
* `citation_utils.py` → `extract_citations`, `create_courtlistener_link`.

Modelling conventions, used throughout:

* Python `float` values are embedded as exact rationals `ℚ`; the numeric
  literals of the source (`0.5`, `0.75`, `5.00`, …) are taken at their decimal
  value.  The threshold and ordering facts proved here do not depend on
  binary-float rounding.
* A Python expression that can raise is embedded in `Except PyErr`; in
  particular `x / y` on plain Python numbers is `pyDiv`, which returns
  `PyErr.zeroDivision` when the divisor is zero, exactly as Python raises
  `ZeroDivisionError`.  NumPy elementwise division (inside `get_scores`) does
  not raise; it is embedded as total division on `ℚ`.
* Python dictionaries are embedded as insertion-ordered association lists
  (`PyDict`): assigning to an existing key updates the value in place,
  assigning to a fresh key appends.  Python guarantees this iteration order.
* `set(a) | set(b)` iteration order is unspecified in Python; it is embedded
  as the ordered union (keys of `a`, then new keys of `b`).  Every property
  proved below is independent of that order.
* `math.log` is transcendental, hence not a function on `ℚ`; the BM25
  embedding takes it as an explicit function parameter `log : ℚ → ℚ`.
  All results are either independent of it or instantiate it concretely.
* External collaborators (embedding model, Qdrant, cross-encoder, Gemini) are
  explicit function parameters (`Oracles`); the theorems hold for every
  instantiation, i.e. for every behaviour of the collaborators.
-/

/-- Exceptions of the embedded Python fragments. -/
inductive PyErr where
  | zeroDivision
  deriving DecidableEq, Repr

/-- Python division on plain numbers: raises `ZeroDivisionError` on a zero
divisor, otherwise returns the exact quotient. -/
def pyDiv (a b : ℚ) : Except PyErr ℚ :=
  if b = 0 then .error .zeroDivision else .ok (a / b)

/-- NumPy elementwise division: never raises (a zero divisor yields a
non-number in NumPy; it is mapped to `0` here, and every theorem below that
touches this path assumes a nonzero divisor). -/
def npDiv (a b : ℚ) : ℚ := a / b

/-- Lowercase a single character, ASCII range (models `str.lower` on the
ASCII texts handled by the engine). -/
def pyLowerChar (c : Char) : Char :=
  if 'A' ≤ c ∧ c ≤ 'Z' then Char.ofNat (c.toNat + 32) else c

/-- Characters treated as whitespace by Python's `str.split()` / `str.strip()`. -/
def pyIsSpace (c : Char) : Bool :=
  c = ' ' ∨ c = '\t' ∨ c = '\n' ∨ c = '\r' ∨ c = '\x0b' ∨ c = '\x0c'

/-- Python `str.lower()`. -/
def pyLower (s : String) : String := String.mk (s.data.map pyLowerChar)

/-- Python `str.strip()`: drop leading and trailing whitespace. -/
def pyStrip (s : String) : String :=
  String.mk (((s.data.dropWhile pyIsSpace).reverse.dropWhile pyIsSpace).reverse)

/-- Helper for `pySplit`: split a character list on whitespace runs,
discarding empty pieces (`cur` is the reversed current word). -/
def pySplitAux : List Char → List Char → List String
  | [], cur => if cur = [] then [] else [String.mk cur.reverse]
  | c :: cs, cur =>
    if pyIsSpace c then
      if cur = [] then pySplitAux cs [] else String.mk cur.reverse :: pySplitAux cs []
    else pySplitAux cs (c :: cur)

/-- Python `str.split()` (no argument): split on whitespace runs, no empty
tokens. -/
def pySplit (s : String) : List String := pySplitAux s.data []

/-- Python string slicing `s[:n]` by characters. -/
def pyTake (n : Nat) (s : String) : String := String.mk (s.data.take n)

/-- Insertion-ordered association list embedding a Python `dict`. -/
abbrev PyDict (α β : Type) := List (α × β)

/-- Python `d[k] = v`: update in place if `k` is present, else append. -/
def dictInsert [DecidableEq α] (d : PyDict α β) (k : α) (v : β) : PyDict α β :=
  match d with
  | [] => [(k, v)]
  | (k', v') :: rest =>
    if k = k' then (k', v) :: rest else (k', v') :: dictInsert rest k v

/-- Python `d.get(k)`, `None` as `none`. -/
def dictGet? [DecidableEq α] (d : PyDict α β) (k : α) : Option β :=
  match d with
  | [] => none
  | (k', v) :: rest => if k = k' then some v else dictGet? rest k

/-- Python `d.get(k, dflt)`. -/
def dictGetD [DecidableEq α] (d : PyDict α β) (k : α) (dflt : β) : β :=
  (dictGet? d k).getD dflt

/-- Python `k in d`. -/
def dictHas [DecidableEq α] (d : PyDict α β) (k : α) : Bool :=
  (dictGet? d k).isSome

/-- Python `list(d.keys())` (insertion order). -/
def dictKeys (d : PyDict α β) : List α := d.map (·.1)

/-- Python `list(d.values())` (insertion order). -/
def dictValues (d : PyDict α β) : List β := d.map (·.2)

/-- Python `max(xs)` for a nonempty list (the callers below guard emptiness
exactly as the source does). -/
def pyMax (x : ℚ) (xs : List ℚ) : ℚ := xs.foldl max x

/-- Stable insertion into a list already sorted under `le`: the new element
passes only entries strictly preceding it, so it lands before its ties.  In
`pySortBy` the inserted element is the earliest of the remaining input, which
matches the stability of Python's `list.sort`. -/
def pyInsertBy (le : α → α → Bool) (x : α) : List α → List α
  | [] => [x]
  | y :: ys =>
    if le y x ∧ ¬ le x y then y :: pyInsertBy le x ys else x :: y :: ys

/-- Stable sort under the total preorder test `le` (Python `list.sort(key=…)`
is this with `le a b := key a ≤ key b`; `reverse=True` flips the test). -/
def pySortBy (le : α → α → Bool) : List α → List α
  | [] => []
  | x :: xs => pyInsertBy le x (pySortBy le xs)

/-- State built by `BM25.__init__` / `BM25Okapi._calc_idf`. -/
structure BM25 where
  corpus_size : Nat
  avgdl : ℚ
  doc_freqs : List (PyDict String Nat)
  idf : PyDict String ℚ
  doc_len : List Nat
  average_idf : ℚ
  deriving Repr

/-- `k1 = 1.5` of `BM25Okapi.__init__`. -/
def bm25_k1 : ℚ := 1.5

/-- `b = 0.75` of `BM25Okapi.__init__`. -/
def bm25_b : ℚ := 0.75

/-- `epsilon = 0.25` of `BM25Okapi.__init__`. -/
def bm25_epsilon : ℚ := 0.25

/-- Per-document term frequencies (the `frequencies` dict of
`BM25._initialize`). -/
def bm25WordFreqs (document : List String) : PyDict String Nat :=
  document.foldl (fun freqs word =>
    dictInsert freqs word (dictGetD freqs word 0 + 1)) []

/-- The `nd` accumulation of `BM25._initialize`: for each word, the number of
documents containing it. -/
def bm25AccumNd (nd : PyDict String Nat) (freqs : PyDict String Nat) :
    PyDict String Nat :=
  freqs.foldl (fun nd p => dictInsert nd p.1 (dictGetD nd p.1 0 + 1)) nd

/-- `BM25._initialize` together with `BM25Okapi._calc_idf`.  The final
`avgdl = num_doc / self.corpus_size` is a plain Python division and raises
`ZeroDivisionError` on an empty corpus; so does
`average_idf = idf_sum / len(nd)` when no word occurs at all.  `math.log` is
the parameter `log`. -/
def bm25Setup (log : ℚ → ℚ) (corpus : List (List String)) :
    Except PyErr BM25 := do
  let doc_freqs := corpus.map bm25WordFreqs
  let doc_len := corpus.map List.length
  let num_doc : Nat := corpus.foldl (fun n d => n + d.length) 0
  let corpus_size := corpus.length
  let nd := doc_freqs.foldl bm25AccumNd []
  let avgdl ← pyDiv (num_doc : ℚ) (corpus_size : ℚ)
  let idf0 : PyDict String ℚ :=
    nd.map (fun p => (p.1, log ((corpus_size : ℚ) - (p.2 : ℚ) + 0.5) - log ((p.2 : ℚ) + 0.5)))
  let idf_sum := (dictValues idf0).foldl (· + ·) 0
  let negative_idfs := (idf0.filter (fun p => p.2 < 0)).map (·.1)
  let average_idf ← pyDiv idf_sum (nd.length : ℚ)
  let eps := bm25_epsilon * average_idf
  let idf := negative_idfs.foldl (fun d w => dictInsert d w eps) idf0
  return { corpus_size := corpus_size, avgdl := avgdl, doc_freqs := doc_freqs,
           idf := idf, doc_len := doc_len, average_idf := average_idf }

/-- `BM25Okapi.get_scores`: one score per corpus document.  The NumPy
elementwise arithmetic never raises, so this is total given the built state
(`self.idf.get(q) or 0` and `doc.get(q) or 0` both default to `0`). -/
def bm25GetScores (bm : BM25) (query : List String) : List ℚ :=
  query.foldl
    (fun score q =>
      let idfq := (dictGet? bm.idf q).getD 0
      List.zipWith
        (fun s (p : PyDict String Nat × Nat) =>
          let q_freq : ℚ := (dictGetD p.1 q 0 : Nat)
          s + idfq * npDiv (q_freq * (bm25_k1 + 1))
              (q_freq + bm25_k1 * (1 - bm25_b + bm25_b * npDiv (p.2 : ℚ) bm.avgdl)))
        score (bm.doc_freqs.zip bm.doc_len))
    (List.replicate bm.corpus_size (0 : ℚ))

/-!
Embedding of `rag_system/hybrid_search.py` (`HybridSearchEngine`).  A search
candidate is a Python dict with optional fields; it is embedded as a structure
of `Option`-valued fields, `none` for an absent key.
-/

/-- A candidate document dict as it flows through the retrieval pipeline. -/
structure Doc where
  chunk_id : Option String := none
  text : Option String := none
  score : Option ℚ := none
  semantic_score : Option ℚ := none
  bm25_score : Option ℚ := none
  hybrid_score : Option ℚ := none
  rerank_score : Option ℚ := none
  collection : Option String := none
  src : Option String := none
  metadata : PyDict String String := []
  deriving DecidableEq, Repr

/-- `HybridSearchEngine.create_bm25_index`: tokenize (lowercase, whitespace
split) and build the BM25 index. -/
def create_bm25_index (log : ℚ → ℚ) (documents : List String) :
    Except PyErr BM25 :=
  bm25Setup log (documents.map (fun doc => pySplit (pyLower doc)))

/-- `HybridSearchEngine.bm25_search`: score all documents against the query
and return the `top_k` best, each a copy of the document with `bm25_score`
set.  `np.argsort(scores)[::-1]` is embedded as a stable ascending sort of
the indexed scores followed by reversal (NumPy's quicksort fixes no tie
order; nothing proved below depends on it). -/
def bm25_search (log : ℚ → ℚ) (query : String) (documents : List Doc)
    (top_k : Nat) : Except PyErr (List Doc) := do
  let texts := documents.map (fun doc => doc.text.getD "")
  let bm25 ← create_bm25_index log texts
  let tokenized_query := pySplit (pyLower query)
  let scores := bm25GetScores bm25 tokenized_query
  let indexed := (List.range scores.length).zip scores
  let top := ((pySortBy (fun a b => decide (a.2 ≤ b.2)) indexed).reverse).take top_k
  return top.map (fun p =>
    { (documents.get? p.1).getD {} with bm25_score := some p.2 })

/-- Key of the score dictionaries inside `hybrid_search`:
`doc.get('chunk_id', i)` is the document's `chunk_id` when present (always a
string in this engine) and the enumeration index otherwise. -/
inductive DKey where
  | str (s : String)
  | idx (n : Nat)
  deriving DecidableEq, Repr

/-- `doc.get('chunk_id', i)`. -/
def docKey (i : Nat) (d : Doc) : DKey :=
  match d.chunk_id with
  | some s => .str s
  | none => .idx i

/-- `doc.get('chunk_id', None) == doc_id` of the lookup loops (`None` equals
no key). -/
def chunkMatches (d : Doc) (k : DKey) : Bool :=
  match d.chunk_id, k with
  | some s, .str t => s = t
  | _, _ => false

/-- The dict comprehension `{doc.get('chunk_id', i): doc.get(f, 0) for i, doc
in enumerate(results)}`. -/
def scoreDict (field : Doc → Option ℚ) (results : List Doc) : PyDict DKey ℚ :=
  (results.enum.map (fun p => (docKey p.1 p.2, (field p.2).getD 0))).foldl
    (fun d p => dictInsert d p.1 p.2) []

/-- `max(scores.values()) if scores else 1` — note the guard covers only the
empty dict, not an all-zero one. -/
def maxScoreOf (d : PyDict DKey ℚ) : ℚ :=
  match dictValues d with
  | [] => 1
  | v :: vs => pyMax v vs

/-- Document lookup of the `hybrid_search` loop: the semantic results are
preferred, the BM25 results are the fallback. -/
def lookupDoc (semantic_results bm25_results : List Doc) (doc_id : DKey) :
    Option Doc :=
  match semantic_results.find? (fun d => chunkMatches d doc_id) with
  | some d => some d
  | none => bm25_results.find? (fun d => chunkMatches d doc_id)

/-- Main loop body of `hybrid_search` over the id union: look the document up
(`continue` when neither side has it), normalize both scores by plain Python
division, and build the scored copy. -/
def hybridEntries (semantic_results bm25_results : List Doc)
    (semantic_scores bm25_scores : PyDict DKey ℚ) (max_semantic max_bm25 alpha : ℚ) :
    List DKey → Except PyErr (List Doc)
  | [] => .ok []
  | doc_id :: rest =>
    match lookupDoc semantic_results bm25_results doc_id with
    | none => hybridEntries semantic_results bm25_results semantic_scores
        bm25_scores max_semantic max_bm25 alpha rest
    | some doc => do
        let sem_score ← pyDiv (dictGetD semantic_scores doc_id 0) max_semantic
        let bm25n ← pyDiv (dictGetD bm25_scores doc_id 0) max_bm25
        let hybrid_score := alpha * sem_score + (1 - alpha) * bm25n
        let tail ← hybridEntries semantic_results bm25_results semantic_scores
          bm25_scores max_semantic max_bm25 alpha rest
        return { doc with semantic_score := some (dictGetD semantic_scores doc_id 0),
                          bm25_score := some (dictGetD bm25_scores doc_id 0),
                          hybrid_score := some hybrid_score,
                          score := some hybrid_score } :: tail

/-- `HybridSearchEngine.hybrid_search`.  `set(a) | set(b)` is embedded as the
ordered key union; the redundant `seen_ids` bookkeeping of the source (the
union already has no duplicates) is dropped.  The final
`sort(key=…, reverse=True)` is the stable descending sort. -/
def hybrid_search (log : ℚ → ℚ) (query : String) (semantic_results : List Doc)
    (all_documents : Option (List Doc) := none) (alpha : ℚ := 0.5)
    (top_k : Nat := 10) : Except PyErr (List Doc) := do
  let all_docs := all_documents.getD semantic_results
  let bm25_results ← bm25_search log query all_docs (top_k * 2)
  let semantic_scores := scoreDict (·.score) semantic_results
  let bm25_scores := scoreDict (·.bm25_score) bm25_results
  let max_semantic := maxScoreOf semantic_scores
  let max_bm25 := maxScoreOf bm25_scores
  let all_doc_ids := dictKeys semantic_scores ++
    (dictKeys bm25_scores).filter (fun k => ¬ dictHas semantic_scores k)
  let hybrid_results ← hybridEntries semantic_results bm25_results
    semantic_scores bm25_scores max_semantic max_bm25 alpha all_doc_ids
  let sorted := pySortBy
    (fun a b => decide ((b.hybrid_score.getD 0) ≤ (a.hybrid_score.getD 0)))
    hybrid_results
  return sorted.take top_k

/-- `HybridSearchEngine.rerank`: cross-encoder scoring, embedded over the
model's `predict` as a function parameter.  `use_reranking` is the engine
construction flag (`True` in `LegalRAGEngine.__init__`); `if top_k:` treats
both `None` and `0` as no truncation. -/
def rerank (use_reranking : Bool) (predict : List (String × String) → List ℚ)
    (query : String) (documents : List Doc) (top_k : Option Nat) : List Doc :=
  if ¬ use_reranking then documents
  else if documents = [] then documents
  else
    let pairs := documents.map (fun doc => (query, pyTake 512 (doc.text.getD "")))
    let rerank_scores := predict pairs
    let reranked_docs := (documents.zip rerank_scores).map (fun p =>
      { p.1 with rerank_score := some p.2, score := some p.2 })
    let sorted := pySortBy
      (fun a b => decide ((b.rerank_score.getD 0) ≤ (a.rerank_score.getD 0)))
      reranked_docs
    match top_k with
    | some k => if k = 0 then sorted else sorted.take k
    | none => sorted

/-!
Embedding of `rag_system/citation_utils.py` (`CitationExtractor`).  The five
compiled regexes are Python `re` machinery; their `finditer` enumeration
(start offset and matched text per match) is taken as a function parameter
`fi : pattern name → text → matches`, while the pattern *order* — a Python
dict, hence insertion-ordered — and everything downstream of the matches is
embedded concretely.
-/

/-- The insertion order of `CitationExtractor.PATTERNS`. -/
def PATTERNS_order : List String :=
  ["us_reporter", "federal_reporter", "supreme_court", "federal_supplement",
   "state_reporter"]

/-- `CitationExtractor.COURTLISTENER_TYPES`. -/
def COURTLISTENER_TYPES : PyDict String String :=
  [("us_reporter", "us"), ("federal_reporter", "f"), ("supreme_court", "sct"),
   ("federal_supplement", "f-supp")]

/-- A citation dict: `type`, matched text, optional CourtListener link, and
match offset. -/
structure Citation where
  ctype : String
  text : String
  link : Option String
  position : Nat
  deriving DecidableEq, Repr

/-- `CitationExtractor._create_courtlistener_link`.  `re.split(r'\s+', …)` on
the stripped citation text is whitespace splitting; on fewer than three
tokens the result is `None` (the source's `try` body cannot actually raise
once the length guard has passed). -/
def create_courtlistener_link (citation_text ctype : String) : Option String :=
  let parts := pySplit (pyStrip citation_text)
  if parts.length < 3 then none
  else
    let volume := parts.headD ""
    let page := (parts.getLast?).getD ""
    match dictGet? COURTLISTENER_TYPES ctype with
    | none => none
    | some cl_type =>
      some ("https://www.courtlistener.com/c/" ++ cl_type ++ "/" ++ volume
        ++ "/" ++ page ++ "/")

/-- Inner loop of `extract_citations` over one pattern's matches, threading
the `seen` set of already reported match texts. -/
def ecMatches (ctype : String) (seen : List String) :
    List (Nat × String) → List String × List Citation
  | [] => (seen, [])
  | m :: rest =>
    if m.2 ∈ seen then ecMatches ctype seen rest
    else
      let p := ecMatches ctype (m.2 :: seen) rest
      (p.1, { ctype := ctype, text := m.2,
              link := create_courtlistener_link m.2 ctype,
              position := m.1 } :: p.2)

/-- Outer loop of `extract_citations` over the patterns in their fixed dict
order. -/
def ecPatterns (fi : String → String → List (Nat × String)) (text : String) :
    List String → List String → List Citation
  | [], _ => []
  | p :: ps, seen =>
    let r := ecMatches p seen (fi p text)
    r.2 ++ ecPatterns fi text ps r.1

/-- `CitationExtractor.extract_citations`: every pattern's matches, first
occurrence of each exact matched text kept, sorted by position (stable). -/
def extract_citations (fi : String → String → List (Nat × String))
    (text : String) : List Citation :=
  pySortBy (fun a b => decide (a.position ≤ b.position))
    (ecPatterns fi text PATTERNS_order [])

/-- The first pattern, in `PATTERNS` order, one of whose matches on `text`
has exact text `t`. -/
def first_matching_pattern (fi : String → String → List (Nat × String))
    (text t : String) : String :=
  (PATTERNS_order.find? (fun name => (fi name text).any (fun m => m.2 = t))).getD ""

/-!
Embedding of `rag_system/usage_tracker.py` (`GeminiUsageTracker`).  Dates are
abstracted to naturals ordered by day (`datetime.now().date()` is the `today`
parameter).  The numeric text inside the two warning strings abbreviates the
source's `%.4f` formatting; only their nonemptiness is ever relied upon.
The per-user `user_usage` diagnostics map is omitted.
-/

/-- `INPUT_COST_PER_MILLION = 0.075`. -/
def INPUT_COST_PER_MILLION : ℚ := 0.075

/-- `OUTPUT_COST_PER_MILLION = 0.30`. -/
def OUTPUT_COST_PER_MILLION : ℚ := 0.30

/-- Mutable state of `GeminiUsageTracker`. -/
structure GeminiUsageTracker where
  max_daily_cost : ℚ
  daily_input_tokens : Nat := 0
  daily_output_tokens : Nat := 0
  daily_requests : Nat := 0
  last_reset_date : Nat
  total_input_tokens : Nat := 0
  total_output_tokens : Nat := 0
  total_requests : Nat := 0
  deriving DecidableEq, Repr

/-- `GeminiUsageTracker._check_reset_daily`: zero the daily counters on the
first touch past a day boundary. -/
def check_reset_daily (today : Nat) (s : GeminiUsageTracker) :
    GeminiUsageTracker :=
  if s.last_reset_date < today then
    { s with daily_input_tokens := 0, daily_output_tokens := 0,
             daily_requests := 0, last_reset_date := today }
  else s

/-- `GeminiUsageTracker.get_daily_cost`. -/
def get_daily_cost (s : GeminiUsageTracker) : ℚ :=
  (s.daily_input_tokens : ℚ) / 1000000 * INPUT_COST_PER_MILLION
    + (s.daily_output_tokens : ℚ) / 1000000 * OUTPUT_COST_PER_MILLION

/-- `GeminiUsageTracker.track_usage` (without the per-user map). -/
def track_usage (today : Nat) (input_tokens output_tokens : Nat)
    (s : GeminiUsageTracker) : GeminiUsageTracker :=
  let s := check_reset_daily today s
  { s with daily_input_tokens := s.daily_input_tokens + input_tokens,
           daily_output_tokens := s.daily_output_tokens + output_tokens,
           daily_requests := s.daily_requests + 1,
           total_input_tokens := s.total_input_tokens + input_tokens,
           total_output_tokens := s.total_output_tokens + output_tokens,
           total_requests := s.total_requests + 1 }

/-- Message of the `daily_cost >= self.max_daily_cost` branch of
`check_cost_limit` (never empty). -/
def cost_limit_message (daily_cost mx : ℚ) : String :=
  "Daily Gemini API cost limit exceeded: $" ++ toString daily_cost
    ++ " >= $" ++ toString mx
    ++ ". AI features temporarily disabled. Resets at midnight."

/-- Message of the 80%-warning branch of `check_cost_limit` (never empty; the
percentage division cannot divide by zero in that branch, since
`0.8·max ≤ cost < max` forces `max > 0`). -/
def cost_warn_message (daily_cost mx : ℚ) : String :=
  "Approaching daily cost limit: $" ++ toString daily_cost ++ " / $"
    ++ toString mx ++ " (" ++ toString (npDiv daily_cost mx * 100) ++ "%)"

/-- `GeminiUsageTracker.check_cost_limit`: `(is_allowed, message)` plus the
post state (the daily counters may have been lazily reset). -/
def check_cost_limit (today : Nat) (s : GeminiUsageTracker) :
    (Bool × String) × GeminiUsageTracker :=
  let s' := check_reset_daily today s
  let daily_cost := get_daily_cost s'
  if s'.max_daily_cost ≤ daily_cost then
    ((false, cost_limit_message daily_cost s'.max_daily_cost), s')
  else if s'.max_daily_cost * 0.8 ≤ daily_cost then
    ((true, cost_warn_message daily_cost s'.max_daily_cost), s')
  else ((true, ""), s')

/-!
Embedding of `rag_system/rag_engine.py` (`LegalRAGEngine`).  The engine is
constructed with `HybridSearchEngine(use_reranking=True)`; its external
collaborators are the `Oracles` record.  Wall-clock timings
(`search_time`, `generation_time`) are not modelled and appear as `0`.
The streaming path (`stream=True`), which defers usage accounting and
caching, is outside this embedding; `ask` below is the `stream=False` path.
-/

/-- A Qdrant filter value.  `_build_qdrant_filter` never builds one (its
body returns `None` before the commented-out construction), so no
constructor is ever applied. -/
inductive QFilter where
  | mk
  deriving DecidableEq, Repr

/-- The `filters` argument of `search`/`ask`. -/
structure Filters where
  date_range : Option (String × Option String) := none
  jurisdiction : Option String := none
  court : Option String := none
  deriving DecidableEq, Repr

/-- `LegalRAGEngine._build_qdrant_filter`: unconditionally `None` ("skip
filtering until metadata is indexed"). -/
def build_qdrant_filter (_filters : Filters) : Option QFilter := none

/-- One Qdrant hit: similarity score plus the payload fields the engine
reads.  `metadata` stands for the payload minus the keys
`text`, `chunk_id`, `source`, `sentences`, `embedding` that the source
filters out. -/
structure Hit where
  score : ℚ
  text : String := ""
  chunk_id : String := ""
  src : String := ""
  metadata : PyDict String String := []
  deriving DecidableEq, Repr

/-- External collaborators of the engine, as explicit functions. -/
structure Oracles where
  encode : String → List ℚ
  qdrant_search : String → List ℚ → Nat → Option QFilter → Except PyErr (List Hit)
  predict : List (String × String) → List ℚ
  logf : ℚ → ℚ
  generate : String → List Doc → String

/-- `self.collections` of `LegalRAGEngine.__init__`. -/
def engine_collections : PyDict String String :=
  [("contracts", "legal_contracts"), ("cases", "legal_cases")]

/-- The `collections_to_search` dispatch of `search`. -/
def collections_to_search (collection_type : String) : List String :=
  if collection_type = "both" then dictValues engine_collections
  else if collection_type = "contracts" then
    [dictGetD engine_collections "contracts" ""]
  else if collection_type = "cases" then
    [dictGetD engine_collections "cases" ""]
  else []

/-- Conversion of a Qdrant hit into a result dict, as in the `for hit in
search_result` loop of `search`. -/
def hitToDoc (collection_name : String) (h : Hit) : Doc :=
  { collection := some collection_name, score := some h.score,
    text := some h.text, chunk_id := some h.chunk_id, src := some h.src,
    metadata := h.metadata }

/-- `LegalRAGEngine.search`: embed, search each collection (a failing
collection is caught and skipped), then hybrid fusion (`alpha=0.7`,
`top_k=limit*2`) and/or cross-encoder reranking, else plain score sort. -/
def search (o : Oracles) (query : String) (collection_type : String)
    (limit : Nat) (filters : Option Filters) (use_hybrid use_reranking : Bool) :
    Except PyErr (List Doc) := do
  let query_vector := o.encode query
  let qdrant_filter :=
    match filters with
    | some f => build_qdrant_filter f
    | none => none
  let initial_limit := if use_hybrid || use_reranking then limit * 3 else limit
  let results := (collections_to_search collection_type).foldl
    (fun acc collection_name =>
      match o.qdrant_search collection_name query_vector initial_limit qdrant_filter with
      | .error _ => acc
      | .ok hits => acc ++ hits.map (hitToDoc collection_name))
    []
  if results ≠ [] ∧ (use_hybrid || use_reranking) then do
    let results ←
      if use_hybrid then hybrid_search o.logf query results none 0.7 (limit * 2)
      else pure results
    let results :=
      if use_reranking then rerank true o.predict query results (some limit)
      else results
    return results
  else
    return (pySortBy (fun a b => decide ((b.score.getD 0) ≤ (a.score.getD 0)))
      results).take limit

/-- Python truthiness of an optional string (`None` and `''` are falsy). -/
def pyTruthy (s : Option String) : Bool :=
  match s with
  | some t => t ≠ ""
  | none => false

/-- Python `a or b` on optional strings. -/
def pyOrStr (a b : Option String) : Option String :=
  if pyTruthy a then a else b

/-- One entry of the `response['sources']` list of `ask`. -/
structure Source where
  score : ℚ
  text : String
  full_text : String
  src : String
  collection : String
  metadata : PyDict String String := []
  semantic_score : Option ℚ := none
  bm25_score : Option ℚ := none
  rerank_score : Option ℚ := none
  citations : Option (List Citation) := none
  deriving DecidableEq, Repr

/-- The source-dict construction for one retrieved chunk inside `ask`
(fallback chain for the display name, per-stage scores when present, up to
three extracted citations when enabled and nonempty). -/
def buildSource (extract_flag : Bool)
    (fi : String → String → List (Nat × String)) (r : Doc) : Source :=
  let original_metadata := r.metadata
  let base : Source :=
    { score := r.score.getD 0,
      text := pyTake 200 (r.text.getD "") ++ "...",
      full_text := r.text.getD "",
      src := (pyOrStr (dictGet? original_metadata "case_name")
              (pyOrStr (dictGet? original_metadata "filename")
                (some (r.src.getD "Unknown")))).getD "",
      collection := r.collection.getD "unknown",
      metadata := original_metadata,
      semantic_score := r.semantic_score,
      bm25_score := r.bm25_score,
      rerank_score := r.rerank_score }
  if extract_flag then
    let citations := extract_citations fi (r.text.getD "")
    if citations ≠ [] then { base with citations := some (citations.take 3) }
    else base
  else base

/-- The response dict of `ask`; absent keys are `none` (the no-results
response carries only `answer` and `sources`). -/
structure Response where
  answer : String
  sources : Option (List Source) := none
  num_sources : Option Nat := none
  search_time : Option ℚ := none
  generation_time : Option ℚ := none
  deriving DecidableEq, Repr

/-- `self._cache_max_size = 100`. -/
def cache_max_size : Nat := 100

/-- The cache-write epilogue of `ask`: evict the oldest (first) entry at
capacity, then store under the key. -/
def cacheStore (cache : PyDict String Response) (key : String)
    (response : Response) : PyDict String Response :=
  let cache := if cache.length ≥ cache_max_size then cache.drop 1 else cache
  dictInsert cache key response

/-- `LegalRAGEngine._create_cache_key`: the canonical
`json.dumps({…}, sort_keys=True)` serialization of the normalized
parameters (keys in sorted order, `', '` and `': '` separators).  The source
returns the MD5 hex digest of this string; MD5 being a function of it, two
calls get equal keys whenever these strings are equal, and the distinct
strings exhibited below have distinct digests. -/
def create_cache_key (query collection_type : String) (limit : Nat)
    (use_hybrid use_reranking : Bool) : String :=
  let jsonEscapeChar : Char → String := fun c =>
    if c = '\\' then "\\\\" else if c = '"' then "\\\"" else String.mk [c]
  let jsonStr : String → String := fun s =>
    "\"" ++ String.join (s.data.map jsonEscapeChar) ++ "\""
  let jsonBool : Bool → String := fun b => if b then "true" else "false"
  "\x7b\"collection\": " ++ jsonStr collection_type
    ++ ", \"limit\": " ++ toString limit
    ++ ", \"query\": " ++ jsonStr (pyStrip (pyLower query))
    ++ ", \"use_hybrid\": " ++ jsonBool use_hybrid
    ++ ", \"use_reranking\": " ++ jsonBool use_reranking ++ "\x7d"

/-- `"No relevant documents found for your query."`. -/
def no_results_answer : String := "No relevant documents found for your query."

/-- `LegalRAGEngine.ask` (non-streaming): search; on zero candidates return
the terminal no-results response *before* any generation; otherwise generate,
assemble the response, and write it to the query cache.  The returned `Nat`
counts invocations of the generation stage (`generate_answer`), and the
returned dict is the query cache after the call.  The in-memory `analytics`
log is not modelled. -/
def ask (o : Oracles) (fi : String → String → List (Nat × String))
    (query collection_type : String) (limit : Nat) (return_sources : Bool)
    (filters : Option Filters) (use_hybrid use_reranking : Bool)
    (extract_flag use_cache : Bool) (query_cache : PyDict String Response) :
    Except PyErr (Response × Nat × PyDict String Response) := do
  let results ← search o query collection_type limit filters use_hybrid use_reranking
  if results = [] then
    return ({ answer := no_results_answer, sources := some [] }, 0, query_cache)
  else
    let answer := o.generate query results
    let response : Response :=
      { answer := answer,
        num_sources := some results.length,
        search_time := some 0,
        generation_time := some 0,
        sources :=
          if return_sources then
            some ((results.take 5).map (buildSource extract_flag fi))
          else none }
    let cache' :=
      if use_cache then
        cacheStore query_cache
          (create_cache_key query collection_type limit use_hybrid use_reranking)
          response
      else query_cache
    return (response, 1, cache')

/-!
Claim results.
-/

/-- The two all-zero-score documents of
`tests/test_edge_cases.py::test_all_zero_semantic_scores`. -/
def zero_score_docs : List Doc :=
  [{ chunk_id := some "1", text := some "document one", score := some 0 },
   { chunk_id := some "2", text := some "document two", score := some 0 }]

/-- The three-document corpus used to separate the fusion weights (semantic
scores 0.9, 0.6, 0.3; the query matches only the first text). -/
def alpha_probe_docs : List Doc :=
  [{ chunk_id := some "1", text := some "alpha", score := some 0.9 },
   { chunk_id := some "2", text := some "beta", score := some 0.6 },
   { chunk_id := some "3", text := some "gamma", score := some 0.3 }]

/-- An over-budget tracker state: 20M output tokens cost $6.00 against the
$5.00 ceiling, last reset on day 10. -/
def tracker_over : GeminiUsageTracker :=
  { max_daily_cost := 5, daily_output_tokens := 20000000, last_reset_date := 10 }

/-- Fusion of `alpha_probe_docs` at `alpha = 1`, computed. -/
def alpha_one_out : List Doc :=
  [{ chunk_id := some "1", text := some "alpha", score := some 1,
     semantic_score := some (9/10), bm25_score := some 1, hybrid_score := some 1 },
   { chunk_id := some "2", text := some "beta", score := some (2/3),
     semantic_score := some (3/5), bm25_score := some 0, hybrid_score := some (2/3) },
   { chunk_id := some "3", text := some "gamma", score := some (1/3),
     semantic_score := some (3/10), bm25_score := some 0, hybrid_score := some (1/3) }]

/-- Fusion of `alpha_probe_docs` at `alpha = 0`, computed. -/
def alpha_zero_out : List Doc :=
  [{ chunk_id := some "1", text := some "alpha", score := some 1,
     semantic_score := some (9/10), bm25_score := some 1, hybrid_score := some 1 },
   { chunk_id := some "2", text := some "beta", score := some 0,
     semantic_score := some (3/5), bm25_score := some 0, hybrid_score := some 0 },
   { chunk_id := some "3", text := some "gamma", score := some 0,
     semantic_score := some (3/10), bm25_score := some 0, hybrid_score := some 0 }]

/-- BM25 ranking of `alpha_probe_docs` for query `"alpha"`, computed. -/
def alpha_probe_br : List Doc :=
  [{ chunk_id := some "1", text := some "alpha", score := some (9/10),
     bm25_score := some 1 },
   { chunk_id := some "3", text := some "gamma", score := some (3/10),
     bm25_score := some 0 },
   { chunk_id := some "2", text := some "beta", score := some (3/5),
     bm25_score := some 0 }]

/-- A `finditer` behaviour on which both `us_reporter` and `state_reporter`
match the exact text `"123 U.S. 456"` at offset 19 (as the compiled
case-insensitive patterns do on the sentence below). -/
def us_state_fi : String → String → List (Nat × String) := fun name _ =>
  if name = "us_reporter" then [(19, "123 U.S. 456")]
  else if name = "state_reporter" then [(19, "123 U.S. 456")]
  else []

theorem pyInsertBy_perm (le : α → α → Bool) (x : α) (l : List α) :
    List.Perm (pyInsertBy le x l) (x :: l) := by
  induction l with
  | nil => simp [pyInsertBy]
  | cons y ys ih =>
    rw [pyInsertBy]
    split
    · exact (ih.cons y).trans (List.Perm.swap x y ys)
    · exact List.Perm.refl _

theorem pySortBy_perm (le : α → α → Bool) (l : List α) :
    List.Perm (pySortBy le l) l := by
  induction l with
  | nil => simp [pySortBy]
  | cons x xs ih => exact (pyInsertBy_perm le x (pySortBy le xs)).trans (ih.cons x)

theorem pyInsertBy_pairwise (le : α → α → Bool)
    (htot : ∀ a b, le a b ∨ le b a)
    (htrans : ∀ a b c, le a b → le b c → le a c) (x : α) (l : List α)
    (hl : l.Pairwise (fun a b => le a b)) :
    (pyInsertBy le x l).Pairwise (fun a b => le a b) := by
  induction l with
  | nil => simp [pyInsertBy]
  | cons y ys ih =>
    rcases List.pairwise_cons.mp hl with ⟨hy, hys⟩
    rw [pyInsertBy]
    split
    · next h =>
      refine List.pairwise_cons.mpr ⟨?_, ih hys⟩
      intro z hz
      rcases List.mem_cons.mp ((pyInsertBy_perm le x ys).mem_iff.mp hz) with hz' | hz'
      · subst hz'; exact h.1
      · exact hy z hz'
    · next h =>
      have hxy : le x y := by
        rcases htot x y with h' | h'
        · exact h'
        · by_cases hxy' : le x y
          · exact hxy'
          · exact absurd ⟨h', by simpa using hxy'⟩ h
      refine List.pairwise_cons.mpr ⟨?_, hl⟩
      intro z hz
      rcases List.mem_cons.mp hz with hz' | hz'
      · subst hz'; exact hxy
      · exact htrans x y z hxy (hy z hz')

theorem pySortBy_pairwise (le : α → α → Bool)
    (htot : ∀ a b, le a b ∨ le b a)
    (htrans : ∀ a b c, le a b → le b c → le a c) (l : List α) :
    (pySortBy le l).Pairwise (fun a b => le a b) := by
  induction l with
  | nil => simp [pySortBy]
  | cons x xs ih => exact pyInsertBy_pairwise le htot htrans x (pySortBy le xs) ih

/-!
Embedding of `rank_bm25.BM25Okapi` (the third-party keyword scorer that
`hybrid_search.py` instantiates), from its published source, version 0.2.2.
Documents are given already tokenized (lists of tokens).
-/

/-- C3.  The spec says an empty document list into the keyword ranker yields
an empty result without an exception; the code instead reaches
`BM25Okapi.__init__`, whose `avgdl = num_doc / self.corpus_size` divides by
the zero corpus size and raises `ZeroDivisionError`.  (The repository's own
`tests/test_edge_cases.py::test_empty_semantic_scores` fails on this.) -/
theorem bm25_search_empty_documents_raises :
    bm25_search (fun q => q) "test" [] 5 = .error .zeroDivision := by
  norm_num +decide [bm25_search, create_bm25_index, bm25Setup, pyDiv,
    bind, Except.bind]

/-- C1.  The spec says fusion normalization uses denominator 1 when a score
set is all zero (or empty) and never raises; the code's guard
`max(...) if scores else 1` covers only the *empty* dict, so on the
repository's own all-zero test input (`test_all_zero_semantic_scores`:
two documents with semantic score `0.0`, `alpha=0.5`, `top_k=2`) the
normalization `score / max_semantic` divides by zero and raises. -/
theorem hybrid_search_all_zero_scores_raises :
    hybrid_search (fun q => q) "test query" zero_score_docs none 0.5 2 =
      .error .zeroDivision := by
  norm_num +decide [hybrid_search, bm25_search, create_bm25_index, bm25Setup,
    bm25WordFreqs, bm25AccumNd, bm25GetScores, bm25_k1, bm25_b, bm25_epsilon,
    pyDiv, npDiv, pyMax, pySortBy, pyInsertBy, dictInsert, dictGet?, dictGetD,
    dictHas, dictKeys, dictValues, scoreDict, maxScoreOf, docKey, chunkMatches,
    lookupDoc, hybridEntries, zero_score_docs, pyLower, pyLowerChar, pySplit,
    pySplitAux, pyIsSpace, bind, Except.bind, pure, Except.pure]

/-- C7, counterexample.  The claim says `hybrid_search`'s weight defaults to
`0.7`; on a concrete input, calling it *without* an `alpha` argument gives a
different result than calling it with `alpha = 0.7` (the signature default is
`alpha: float = 0.5`; the `0.7` of the spec is what `LegalRAGEngine.search`
passes explicitly). -/
theorem hybrid_search_default_alpha_not_07 :
    hybrid_search (fun q => q) "alpha" alpha_probe_docs ≠
      hybrid_search (fun q => q) "alpha" alpha_probe_docs none 0.7 10 := by
  norm_num +decide [hybrid_search, bm25_search, create_bm25_index, bm25Setup,
    bm25WordFreqs, bm25AccumNd, bm25GetScores, bm25_k1, bm25_b, bm25_epsilon,
    pyDiv, npDiv, pyMax, pySortBy, pyInsertBy, dictInsert, dictGet?, dictGetD,
    dictHas, dictKeys, dictValues, scoreDict, maxScoreOf, docKey, chunkMatches,
    lookupDoc, hybridEntries, alpha_probe_docs, pyLower, pyLowerChar, pySplit,
    pySplitAux, pyIsSpace, List.enum, List.enumFrom, bind, Except.bind, pure,
    Except.pure]

/-- C7, amended.  `hybrid_search`'s weight `alpha` defaults to `0.5` when the
caller does not supply it (`LegalRAGEngine.search` always passes `0.7`
explicitly, so the engine's fusion runs at `0.7` — but that is the call site,
not the default). -/
theorem hybrid_search_alpha_defaults_to_half (log : ℚ → ℚ) (query : String)
    (semantic_results : List Doc) :
    hybrid_search log query semantic_results =
      hybrid_search log query semantic_results none 0.5 10 := rfl

/-- C4, counterexample.  Two queries differing only in (internal) whitespace
— `"a b"` versus `"a  b"` — get different cache keys with all other
parameters equal: the normalization is `query.lower().strip()`, which strips
only leading/trailing whitespace. -/
theorem create_cache_key_internal_whitespace_differs :
    create_cache_key "a b" "both" 5 true true ≠
      create_cache_key "a  b" "both" 5 true true := by decide

/-- C4, amended.  Two queries that agree after lowercasing and stripping
leading/trailing whitespace — i.e. differing only in letter case and/or
*edge* whitespace — get identical cache keys when the remaining parameters
(collection, limit, fusion flag, rerank flag) are equal. -/
theorem create_cache_key_case_edge_whitespace (q1 q2 collection_type : String)
    (limit : Nat) (use_hybrid use_reranking : Bool)
    (h : pyStrip (pyLower q1) = pyStrip (pyLower q2)) :
    create_cache_key q1 collection_type limit use_hybrid use_reranking =
      create_cache_key q2 collection_type limit use_hybrid use_reranking := by
  simp only [create_cache_key, h]

/-- C4, witness: `"  Hello World"` and `"hello world  "` differ only in case
and edge whitespace and get the same key. -/
theorem create_cache_key_case_edge_whitespace_witness :
    create_cache_key "  Hello World" "both" 5 true true =
      create_cache_key "hello world  " "both" 5 true true :=
  create_cache_key_case_edge_whitespace "  Hello World" "hello world  "
    "both" 5 true true (by decide)

/-- C8.  Structured filters are inert: `_build_qdrant_filter` returns `None`
unconditionally, so `search` and `ask` produce exactly the same value with
any `filters` argument as with none, for every behaviour of the external
search backend. -/
theorem filters_are_inert (o : Oracles)
    (fi : String → String → List (Nat × String)) (query collection_type : String)
    (limit : Nat) (f : Filters) (return_sources use_hybrid use_reranking : Bool)
    (extract_flag use_cache : Bool) (query_cache : PyDict String Response) :
    search o query collection_type limit (some f) use_hybrid use_reranking =
      search o query collection_type limit none use_hybrid use_reranking ∧
    ask o fi query collection_type limit return_sources (some f) use_hybrid
        use_reranking extract_flag use_cache query_cache =
      ask o fi query collection_type limit return_sources none use_hybrid
        use_reranking extract_flag use_cache query_cache := ⟨rfl, rfl⟩

/-- C2.  The query cache of `LegalRAGEngine.ask` is write-only: the method
computes the full pipeline and stores the response under the cache key, but
never looks the key up, so the response (and the generation count) of a call
is identical whatever the cache contains — in particular a second `ask` with
identical parameters recomputes the pipeline instead of returning the cached
`QueryResult` of the first call. -/
theorem ask_never_reads_cache (o : Oracles)
    (fi : String → String → List (Nat × String)) (query collection_type : String)
    (limit : Nat) (return_sources : Bool) (filters : Option Filters)
    (use_hybrid use_reranking extract_flag use_cache : Bool)
    (cache1 cache2 : PyDict String Response) :
    (ask o fi query collection_type limit return_sources filters use_hybrid
        use_reranking extract_flag use_cache cache1).map (fun r => (r.1, r.2.1)) =
      (ask o fi query collection_type limit return_sources filters use_hybrid
        use_reranking extract_flag use_cache cache2).map (fun r => (r.1, r.2.1)) := by
  cases h : search o query collection_type limit filters use_hybrid use_reranking with
  | error e => simp [ask, h, bind, Except.bind, Except.map]
  | ok results =>
    cases results with
    | nil => simp [ask, h, bind, Except.bind, pure, Except.pure, Except.map]
    | cons d ds => simp [ask, h, bind, Except.bind, pure, Except.pure, Except.map]

/-- C6.  When vector search returns zero hits for every collection queried,
`ask` returns the terminal no-results response — answer
`"No relevant documents found for your query."`, empty sources — without
invoking the generation stage (invocation count 0) and without touching the
cache. -/
theorem ask_zero_hits_terminal (o : Oracles)
    (fi : String → String → List (Nat × String)) (query collection_type : String)
    (limit : Nat) (return_sources : Bool) (filters : Option Filters)
    (use_hybrid use_reranking extract_flag use_cache : Bool)
    (query_cache : PyDict String Response)
    (hq : ∀ c v n qf, o.qdrant_search c v n qf = .ok []) :
    ask o fi query collection_type limit return_sources filters use_hybrid
        use_reranking extract_flag use_cache query_cache =
      .ok ({ answer := no_results_answer, sources := some [] }, 0, query_cache) := by
  have hfold : ∀ (L : List String) (acc : List Doc) (v : List ℚ) (n : Nat)
      (qf : Option QFilter),
      L.foldl (fun acc collection_name =>
        match o.qdrant_search collection_name v n qf with
        | .error _ => acc
        | .ok hits => acc ++ hits.map (hitToDoc collection_name)) acc = acc := by
    intro L
    induction L with
    | nil => intro acc v n qf; rfl
    | cons c cs ih => intro acc v n qf; rw [List.foldl_cons, hq c v n qf]; simpa using ih acc v n qf
  have hs : search o query collection_type limit filters use_hybrid use_reranking
      = .ok [] := by
    simp [search, hfold, pySortBy, bind, Except.bind, pure, Except.pure]
  simp [ask, hs, bind, Except.bind, pure, Except.pure]

/-- C6, witness: with a backend that returns no hits, a concrete `ask`
returns the terminal no-results response and generation count 0. -/
theorem ask_zero_hits_terminal_witness :
    ask ⟨fun _ => [], fun _ _ _ _ => .ok [], fun _ => [], fun q => q, fun _ _ => ""⟩
        (fun _ _ => []) "q" "both" 5 true none true true true true [] =
      .ok ({ answer := no_results_answer, sources := some [] }, 0, []) :=
  ask_zero_hits_terminal _ _ "q" "both" 5 true none true true true true []
    (fun _ _ _ _ => rfl)

theorem cost_limit_message_ne_empty (c m : ℚ) : cost_limit_message c m ≠ "" := by
  intro h
  have hlen := congrArg String.length h
  simp only [cost_limit_message, String.length_append] at hlen
  have h1 : (0:Nat) < String.length "Daily Gemini API cost limit exceeded: $" := by
    decide
  have h0 : String.length "" = 0 := by decide
  omega

theorem cost_warn_message_ne_empty (c m : ℚ) : cost_warn_message c m ≠ "" := by
  intro h
  have hlen := congrArg String.length h
  simp only [cost_warn_message, String.length_append] at hlen
  have h1 : (0:Nat) < String.length "Approaching daily cost limit: $" := by decide
  have h0 : String.length "" = 0 := by decide
  omega

theorem check_reset_daily_max (today : Nat) (s : GeminiUsageTracker) :
    (check_reset_daily today s).max_daily_cost = s.max_daily_cost := by
  unfold check_reset_daily
  split <;> rfl

theorem check_cost_limit_eq (today : Nat) (s : GeminiUsageTracker) :
    check_cost_limit today s =
      (if (check_reset_daily today s).max_daily_cost ≤
          get_daily_cost (check_reset_daily today s) then
        ((false, cost_limit_message (get_daily_cost (check_reset_daily today s))
          (check_reset_daily today s).max_daily_cost), check_reset_daily today s)
      else if (check_reset_daily today s).max_daily_cost * 0.8 ≤
          get_daily_cost (check_reset_daily today s) then
        ((true, cost_warn_message (get_daily_cost (check_reset_daily today s))
          (check_reset_daily today s).max_daily_cost), check_reset_daily today s)
      else ((true, ""), check_reset_daily today s)) := rfl

/-- C5.  `check_cost_limit` reports not-allowed exactly when the (lazily
reset) daily cost has reached the ceiling; allowed with a nonempty warning
exactly when it is at or above 80% of the ceiling but below it; allowed with
the empty message exactly otherwise (below the ceiling and below its 80%
mark); and once the date has advanced past the last reset date, the call
resets the daily counters and (a positive ceiling given) reports allowed
with no message. -/
theorem check_cost_limit_spec (s : GeminiUsageTracker) (today : Nat) :
    (((check_cost_limit today s).1.1 = false) ↔
      s.max_daily_cost ≤ get_daily_cost (check_reset_daily today s)) ∧
    (((check_cost_limit today s).1.1 = true ∧ (check_cost_limit today s).1.2 ≠ "") ↔
      (s.max_daily_cost * 0.8 ≤ get_daily_cost (check_reset_daily today s) ∧
        get_daily_cost (check_reset_daily today s) < s.max_daily_cost)) ∧
    (((check_cost_limit today s).1.1 = true ∧ (check_cost_limit today s).1.2 = "") ↔
      (get_daily_cost (check_reset_daily today s) < s.max_daily_cost ∧
        get_daily_cost (check_reset_daily today s) < s.max_daily_cost * 0.8)) ∧
    (s.last_reset_date < today → 0 < s.max_daily_cost →
      (check_cost_limit today s).1 = (true, "") ∧
      (check_cost_limit today s).2.daily_input_tokens = 0 ∧
      (check_cost_limit today s).2.daily_output_tokens = 0 ∧
      (check_cost_limit today s).2.daily_requests = 0) := by
  rw [check_cost_limit_eq, check_reset_daily_max]
  set c := get_daily_cost (check_reset_daily today s) with hc
  refine ⟨?_, ?_, ?_, ?_⟩
  · by_cases h1 : s.max_daily_cost ≤ c
    · simp [h1]
    · by_cases h2 : s.max_daily_cost * 0.8 ≤ c <;> simp [h1, h2]
  · by_cases h1 : s.max_daily_cost ≤ c
    · simp [h1, not_lt.mpr h1]
    · by_cases h2 : s.max_daily_cost * 0.8 ≤ c
      · simp [h1, h2, cost_warn_message_ne_empty, lt_of_not_ge h1]
      · have : ¬ (s.max_daily_cost * 0.8 ≤ c ∧ c < s.max_daily_cost) :=
          fun hcon => h2 hcon.1
        simp [h1, h2, this]
  · by_cases h1 : s.max_daily_cost ≤ c
    · simp [h1, not_lt.mpr h1]
    · by_cases h2 : s.max_daily_cost * 0.8 ≤ c
      · simp [h1, h2, cost_warn_message_ne_empty, not_lt.mpr h2]
      · simp [h1, h2, lt_of_not_ge h1, lt_of_not_ge h2]
  · intro hday hpos
    have hz : check_reset_daily today s =
        { s with daily_input_tokens := 0, daily_output_tokens := 0,
                 daily_requests := 0, last_reset_date := today } := by
      rw [check_reset_daily, if_pos hday]
    have hc0 : c = 0 := by
      rw [hc, hz]
      simp [get_daily_cost]
    have h1 : ¬ s.max_daily_cost ≤ c := by rw [hc0]; exact not_le.mpr hpos
    have h2 : ¬ s.max_daily_cost * 0.8 ≤ c := by
      rw [hc0]
      exact not_le.mpr (by positivity)
    refine ⟨by simp [h1, h2], ?_, ?_, ?_⟩ <;> simp [h1, h2, hz]

theorem tracker_over_cost_ge :
    tracker_over.max_daily_cost ≤ get_daily_cost (check_reset_daily 10 tracker_over) := by
  norm_num [tracker_over, check_reset_daily, get_daily_cost,
    INPUT_COST_PER_MILLION, OUTPUT_COST_PER_MILLION]

theorem tracker_over_max_pos : (0:ℚ) < tracker_over.max_daily_cost := by
  norm_num [tracker_over]

/-- C5, witness: at $6.00 of daily cost against the $5.00 ceiling the check
reports not-allowed; with the date advanced past the last reset date the same
state is reset and reports allowed with no message. -/
theorem check_cost_limit_spec_witness :
    (check_cost_limit 10 tracker_over).1.1 = false ∧
    (check_cost_limit 11 tracker_over).1 = (true, "") :=
  ⟨(check_cost_limit_spec tracker_over 10).1.mpr tracker_over_cost_ge,
   ((check_cost_limit_spec tracker_over 11).2.2.2 (by decide) tracker_over_max_pos).1⟩

theorem hybridEntries_ok_mem (sr br : List Doc) (ss bs : PyDict DKey ℚ)
    (ms mb alpha : ℚ) (ids : List DKey) (l : List Doc)
    (h : hybridEntries sr br ss bs ms mb alpha ids = .ok l) :
    ∀ e ∈ l, ∃ sem bm, e.semantic_score = some sem ∧ e.bm25_score = some bm ∧
      e.hybrid_score = some (alpha * (sem / ms) + (1 - alpha) * (bm / mb)) := by
  induction ids generalizing l with
  | nil =>
    simp only [hybridEntries] at h
    cases h
    intro e he
    cases he
  | cons k ks ih =>
    rw [hybridEntries] at h
    cases hd : lookupDoc sr br k with
    | none =>
      rw [hd] at h
      exact ih l h
    | some doc =>
      rw [hd] at h
      by_cases hms : ms = 0
      · simp [pyDiv, hms, bind, Except.bind] at h
      · by_cases hmb : mb = 0
        · simp [pyDiv, hms, hmb, bind, Except.bind] at h
        · simp only [pyDiv, if_neg hms, if_neg hmb, bind, Except.bind] at h
          cases ht : hybridEntries sr br ss bs ms mb alpha ks with
          | error e => rw [ht] at h; cases h
          | ok tail =>
            rw [ht] at h
            simp only [pure, Except.pure, Except.ok.injEq] at h
            subst h
            intro e he
            rcases List.mem_cons.mp he with he' | he'
            · subst he'
              exact ⟨dictGetD ss k 0, dictGetD bs k 0, rfl, rfl, rfl⟩
            · exact ih tail ht e he'

theorem sortBy_take_pairwise (key : Doc → ℚ) (l : List Doc) (k : Nat) :
    ((pySortBy (fun a b => decide (key b ≤ key a)) l).take k).Pairwise
      (fun a b => key b ≤ key a) := by
  have hp := pySortBy_pairwise (fun a b => decide (key b ≤ key a))
    (fun a b => by
      rcases le_total (key b) (key a) with h | h
      · exact Or.inl (by simpa using h)
      · exact Or.inr (by simpa using h))
    (fun a b c hab hbc => by
      simp only [decide_eq_true_eq] at *
      exact le_trans hbc hab) l
  have hp' : (pySortBy (fun a b => decide (key b ≤ key a)) l).Pairwise
      (fun a b => key b ≤ key a) :=
    hp.imp (fun h => by simpa using h)
  exact hp'.sublist (List.take_sublist k _)

theorem mem_of_mem_sortBy_take (le : Doc → Doc → Bool) (l : List Doc) (k : Nat)
    (e : Doc) (he : e ∈ (pySortBy le l).take k) : e ∈ l :=
  (pySortBy_perm le l).mem_iff.mp ((List.take_sublist k _).subset he)

/-- C9.  On the same input set (the semantic results themselves forming the
BM25 pool), fusion at `alpha = 1.0` returns a list ordered by descending
semantic score, and fusion at `alpha = 0.0` one ordered by descending BM25
score — i.e. the pure-semantic resp. pure-BM25 ranking — provided the
respective maximal score is positive (with an all-zero maximum on a side the
normalization divides by zero — the defect recorded under C1 — and with a
negative maximum the division flips the order). -/
theorem hybrid_search_alpha_extremes (log : ℚ → ℚ) (query : String)
    (semantic_results : List Doc) (top_k : Nat) (out out' br : List Doc) :
    (hybrid_search log query semantic_results none 1 top_k = .ok out →
      0 < maxScoreOf (scoreDict (·.score) semantic_results) →
      out.Pairwise (fun a b =>
        (b.semantic_score.getD 0) ≤ (a.semantic_score.getD 0))) ∧
    (hybrid_search log query semantic_results none 0 top_k = .ok out' →
      bm25_search log query semantic_results (top_k * 2) = .ok br →
      0 < maxScoreOf (scoreDict (·.bm25_score) br) →
      out'.Pairwise (fun a b =>
        (b.bm25_score.getD 0) ≤ (a.bm25_score.getD 0))) := by
  constructor
  · intro h hpos
    simp only [hybrid_search, bind, Except.bind, pure, Except.pure,
      Option.getD_none] at h
    cases hbr : bm25_search log query semantic_results (top_k * 2) with
    | error e =>
      simp only [hbr] at h
      exact Except.noConfusion h
    | ok br₀ =>
      simp only [hbr] at h
      split at h
      · exact Except.noConfusion h
      · next hl hents =>
        injection h with h
        subst h
        have hst := sortBy_take_pairwise (fun d => d.hybrid_score.getD 0) hl top_k
        have hinv := hybridEntries_ok_mem _ _ _ _ _ _ _ _ _ hents
        refine hst.imp_of_mem ?_
        intro a b ha hb hab
        rcases hinv a (mem_of_mem_sortBy_take _ _ _ _ ha) with
          ⟨sema, bma, hsa, _hba, hha⟩
        rcases hinv b (mem_of_mem_sortBy_take _ _ _ _ hb) with
          ⟨semb, bmb, hsb, _hbb, hhb⟩
        rw [hsa, hsb]
        rw [hha, hhb] at hab
        simp only [one_mul, sub_self, zero_mul, add_zero, Option.getD_some] at hab
        simpa using (div_le_div_iff_of_pos_right hpos).mp hab
  · intro h hbr hpos
    simp only [hybrid_search, bind, Except.bind, pure, Except.pure,
      Option.getD_none] at h
    simp only [hbr] at h
    split at h
    · exact Except.noConfusion h
    · next hl hents =>
      injection h with h
      subst h
      have hst := sortBy_take_pairwise (fun d => d.hybrid_score.getD 0) hl top_k
      have hinv := hybridEntries_ok_mem _ _ _ _ _ _ _ _ _ hents
      refine hst.imp_of_mem ?_
      intro a b ha hb hab
      rcases hinv a (mem_of_mem_sortBy_take _ _ _ _ ha) with
        ⟨sema, bma, _hsa, hba, hha⟩
      rcases hinv b (mem_of_mem_sortBy_take _ _ _ _ hb) with
        ⟨semb, bmb, _hsb, hbb, hhb⟩
      rw [hba, hbb]
      rw [hha, hhb] at hab
      simp only [zero_mul, sub_zero, one_mul, zero_add, Option.getD_some] at hab
      simpa using (div_le_div_iff_of_pos_right hpos).mp hab

theorem alpha_one_eval :
    hybrid_search (fun q => q) "alpha" alpha_probe_docs none 1 10 =
      .ok alpha_one_out := by
  norm_num +decide [hybrid_search, bm25_search, create_bm25_index, bm25Setup,
    bm25WordFreqs, bm25AccumNd, bm25GetScores, bm25_k1, bm25_b, bm25_epsilon,
    pyDiv, npDiv, pyMax, pySortBy, pyInsertBy, dictInsert, dictGet?, dictGetD,
    dictHas, dictKeys, dictValues, scoreDict, maxScoreOf, docKey, chunkMatches,
    lookupDoc, hybridEntries, alpha_probe_docs, alpha_one_out, pyLower,
    pyLowerChar, pySplit, pySplitAux, pyIsSpace, List.enum, List.enumFrom,
    bind, Except.bind, pure, Except.pure]

theorem alpha_zero_eval :
    hybrid_search (fun q => q) "alpha" alpha_probe_docs none 0 10 =
      .ok alpha_zero_out := by
  norm_num +decide [hybrid_search, bm25_search, create_bm25_index, bm25Setup,
    bm25WordFreqs, bm25AccumNd, bm25GetScores, bm25_k1, bm25_b, bm25_epsilon,
    pyDiv, npDiv, pyMax, pySortBy, pyInsertBy, dictInsert, dictGet?, dictGetD,
    dictHas, dictKeys, dictValues, scoreDict, maxScoreOf, docKey, chunkMatches,
    lookupDoc, hybridEntries, alpha_probe_docs, alpha_zero_out, pyLower,
    pyLowerChar, pySplit, pySplitAux, pyIsSpace, List.enum, List.enumFrom,
    bind, Except.bind, pure, Except.pure]

theorem alpha_probe_bm25_eval :
    bm25_search (fun q => q) "alpha" alpha_probe_docs (10 * 2) =
      .ok alpha_probe_br := by
  norm_num +decide [bm25_search, create_bm25_index, bm25Setup, bm25WordFreqs,
    bm25AccumNd, bm25GetScores, bm25_k1, bm25_b, bm25_epsilon, pyDiv, npDiv,
    pySortBy, pyInsertBy, alpha_probe_docs, alpha_probe_br, pyLower,
    pyLowerChar, pySplit, pySplitAux, pyIsSpace, dictInsert, dictGet?,
    dictGetD, bind, Except.bind, pure, Except.pure]

theorem alpha_probe_max_sem_pos :
    0 < maxScoreOf (scoreDict (·.score) alpha_probe_docs) := by
  norm_num +decide [maxScoreOf, scoreDict, alpha_probe_docs, docKey,
    dictInsert, dictValues, pyMax, List.enum, List.enumFrom]

theorem alpha_probe_max_bm_pos :
    0 < maxScoreOf (scoreDict (·.bm25_score) alpha_probe_br) := by
  norm_num +decide [maxScoreOf, scoreDict, alpha_probe_br, docKey,
    dictInsert, dictValues, pyMax, List.enum, List.enumFrom]

/-- C9, witness: on the concrete three-document input, fusion at `alpha = 1`
is ordered by descending semantic score and fusion at `alpha = 0` by
descending BM25 score. -/
theorem hybrid_search_alpha_extremes_witness :
    alpha_one_out.Pairwise (fun a b =>
      (b.semantic_score.getD 0) ≤ (a.semantic_score.getD 0)) ∧
    alpha_zero_out.Pairwise (fun a b =>
      (b.bm25_score.getD 0) ≤ (a.bm25_score.getD 0)) :=
  ⟨(hybrid_search_alpha_extremes (fun q => q) "alpha" alpha_probe_docs 10
      alpha_one_out alpha_zero_out alpha_probe_br).1
      alpha_one_eval alpha_probe_max_sem_pos,
   (hybrid_search_alpha_extremes (fun q => q) "alpha" alpha_probe_docs 10
      alpha_one_out alpha_zero_out alpha_probe_br).2
      alpha_zero_eval alpha_probe_bm25_eval alpha_probe_max_bm_pos⟩

theorem ecMatches_countP (ctype t : String) :
    ∀ (ms : List (Nat × String)) (seen : List String),
      List.countP (fun c => c.text = t) (ecMatches ctype seen ms).2 =
        if t ∈ seen then 0
        else if ms.any (fun m => m.2 = t) then 1 else 0 := by
  intro ms
  induction ms with
  | nil =>
    intro seen
    simp [ecMatches]
  | cons m rest ih =>
    intro seen
    rw [ecMatches]
    by_cases hm : m.2 ∈ seen
    · rw [if_pos hm, ih seen]
      by_cases ht : t ∈ seen
      · simp [ht]
      · have hmt : ¬ (m.2 = t) := fun he => ht (he ▸ hm)
        rw [if_neg ht, if_neg ht, List.any_cons, decide_eq_false hmt,
          Bool.false_or]
    · rw [if_neg hm]
      simp only [List.countP_cons]
      rw [ih (m.2 :: seen)]
      by_cases ht : t ∈ seen
      · have hmt : ¬ (m.2 = t) := fun he => hm (he ▸ ht)
        have ht2 : t ∈ m.2 :: seen := List.mem_cons.mpr (Or.inr ht)
        rw [if_pos ht2, if_pos ht]
        simp [decide_eq_false hmt]
      · by_cases hmt : m.2 = t
        · subst hmt
          have ht2 : m.2 ∈ m.2 :: seen := List.mem_cons_self _ _
          rw [if_pos ht2, if_neg ht, List.any_cons]
          simp
        · have ht2 : t ∉ m.2 :: seen := by
            intro hc
            rcases List.mem_cons.mp hc with h | h
            · exact hmt h.symm
            · exact ht h
          rw [if_neg ht2, if_neg ht, List.any_cons, decide_eq_false hmt,
            Bool.false_or]
          simp [decide_eq_false hmt]

theorem ecMatches_seen (ctype t : String) :
    ∀ (ms : List (Nat × String)) (seen : List String),
      t ∈ (ecMatches ctype seen ms).1 ↔
        t ∈ seen ∨ ms.any (fun m => m.2 = t) = true := by
  intro ms
  induction ms with
  | nil =>
    intro seen
    simp [ecMatches]
  | cons m rest ih =>
    intro seen
    rw [ecMatches]
    by_cases hm : m.2 ∈ seen
    · rw [if_pos hm, ih seen]
      constructor
      · rintro (h | h)
        · exact Or.inl h
        · exact Or.inr (by simp [h])
      · rintro (h | h)
        · exact Or.inl h
        · rcases List.any_eq_true.mp h with ⟨x, hx, hxt⟩
          rcases List.mem_cons.mp hx with hx' | hx'
          · have hmt : m.2 = t := by rw [← hx']; simpa using hxt
            exact Or.inl (hmt ▸ hm)
          · exact Or.inr (List.any_eq_true.mpr ⟨x, hx', hxt⟩)
    · rw [if_neg hm, ih (m.2 :: seen)]
      constructor
      · rintro (h | h)
        · rcases List.mem_cons.mp h with h' | h'
          · subst h'
            exact Or.inr (by simp)
          · exact Or.inl h'
        · exact Or.inr (by simp [h])
      · rintro (h | h)
        · exact Or.inl (List.mem_cons.mpr (Or.inr h))
        · rcases List.any_eq_true.mp h with ⟨x, hx, hxt⟩
          rcases List.mem_cons.mp hx with hx' | hx'
          · have hmt : m.2 = t := by rw [← hx']; simpa using hxt
            exact Or.inl (List.mem_cons.mpr (Or.inl hmt.symm))
          · exact Or.inr (List.any_eq_true.mpr ⟨x, hx', hxt⟩)

theorem ecMatches_mem (ctype : String) :
    ∀ (ms : List (Nat × String)) (seen : List String) (c : Citation),
      c ∈ (ecMatches ctype seen ms).2 →
        c.ctype = ctype ∧ c.text ∉ seen ∧
          ms.any (fun m => m.2 = c.text) = true := by
  intro ms
  induction ms with
  | nil =>
    intro seen c hc
    simp [ecMatches] at hc
  | cons m rest ih =>
    intro seen c hc
    rw [ecMatches] at hc
    by_cases hm : m.2 ∈ seen
    · rw [if_pos hm] at hc
      rcases ih seen c hc with ⟨h1, h2, h3⟩
      exact ⟨h1, h2, by simp [h3]⟩
    · rw [if_neg hm] at hc
      rcases List.mem_cons.mp hc with hc' | hc'
      · subst hc'
        exact ⟨rfl, hm, by simp⟩
      · rcases ih (m.2 :: seen) c hc' with ⟨h1, h2, h3⟩
        exact ⟨h1, fun ht => h2 (List.mem_cons.mpr (Or.inr ht)), by simp [h3]⟩

theorem ecPatterns_countP (fi : String → String → List (Nat × String))
    (text t : String) :
    ∀ (ps : List String) (seen : List String),
      List.countP (fun c => c.text = t) (ecPatterns fi text ps seen) =
        if t ∈ seen then 0
        else if ps.any (fun p => (fi p text).any (fun m => m.2 = t)) then 1
        else 0 := by
  intro ps
  induction ps with
  | nil =>
    intro seen
    simp [ecPatterns]
  | cons p ps ih =>
    intro seen
    rw [ecPatterns]
    simp only [List.countP_append]
    rw [ecMatches_countP, ih ((ecMatches p seen (fi p text)).1)]
    by_cases ht : t ∈ seen
    · have ht' : t ∈ (ecMatches p seen (fi p text)).1 :=
        (ecMatches_seen p t (fi p text) seen).mpr (Or.inl ht)
      simp [ht, ht']
    · by_cases hp : (fi p text).any (fun m => m.2 = t)
      · have ht' : t ∈ (ecMatches p seen (fi p text)).1 :=
          (ecMatches_seen p t (fi p text) seen).mpr (Or.inr hp)
      -- the pattern p contributes the (single) citation for t; the rest sees
      -- t in `seen` and contributes nothing
        rw [if_neg ht, if_pos ht', if_neg ht, List.any_cons, hp, Bool.true_or,
          if_pos rfl]
      · have ht' : t ∉ (ecMatches p seen (fi p text)).1 := fun hc => by
          rcases (ecMatches_seen p t (fi p text) seen).mp hc with h | h
          · exact ht h
          · exact hp h
        have hpf : ((fi p text).any fun m => decide (m.2 = t)) = false := by
          cases hX : (fi p text).any fun m => decide (m.2 = t)
          · rfl
          · exact absurd hX hp
        rw [if_neg ht, if_neg ht', if_neg ht, List.any_cons, hpf, Bool.false_or]
        simp

theorem ecPatterns_mem (fi : String → String → List (Nat × String))
    (text : String) :
    ∀ (ps : List String) (seen : List String) (c : Citation),
      c ∈ ecPatterns fi text ps seen →
        c.text ∉ seen ∧
          ps.find? (fun p => (fi p text).any (fun m => m.2 = c.text)) =
            some c.ctype := by
  intro ps
  induction ps with
  | nil =>
    intro seen c hc
    simp [ecPatterns] at hc
  | cons p ps ih =>
    intro seen c hc
    rw [ecPatterns] at hc
    rcases List.mem_append.mp hc with hc' | hc'
    · rcases ecMatches_mem p (fi p text) seen c hc' with ⟨h1, h2, h3⟩
      refine ⟨h2, ?_⟩
      have h3' : (fun q => (fi q text).any fun m => decide (m.2 = c.text)) p
          = true := h3
      rw [List.find?_cons_of_pos ps h3', h1]
    · rcases ih _ c hc' with ⟨h1, h2⟩
      have hns : c.text ∉ seen := fun hs =>
        h1 ((ecMatches_seen p c.text (fi p text) seen).mpr (Or.inl hs))
      have hnp : ¬ (fi p text).any (fun m => m.2 = c.text) = true := fun hp =>
        h1 ((ecMatches_seen p c.text (fi p text) seen).mpr (Or.inr hp))
      refine ⟨hns, ?_⟩
      have hnp' : ¬ (fun q => (fi q text).any fun m => decide (m.2 = c.text)) p
          = true := hnp
      rw [List.find?_cons_of_neg ps hnp', h2]

/-- C10.  When a citation substring is matched (as the same exact text) by
more than one reporter pattern, `extract_citations` reports it exactly once
— deduplication is by exact matched text across all patterns — and the
reported `type` is the first pattern in the fixed order `us_reporter`,
`federal_reporter`, `supreme_court`, `federal_supplement`, `state_reporter`
whose matches contain that text.  `fi` is the `finditer` enumeration of the
compiled patterns. -/
theorem extract_citations_dedup_first_type
    (fi : String → String → List (Nat × String)) (text t p₁ p₂ : String)
    (hp₁ : p₁ ∈ PATTERNS_order) (_hp₂ : p₂ ∈ PATTERNS_order) (_hne : p₁ ≠ p₂)
    (hm₁ : ∃ pos, (pos, t) ∈ fi p₁ text) (_hm₂ : ∃ pos, (pos, t) ∈ fi p₂ text) :
    List.countP (fun c => c.text = t) (extract_citations fi text) = 1 ∧
      ∀ c ∈ extract_citations fi text, c.text = t →
        c.ctype = first_matching_pattern fi text t := by
  have hperm := pySortBy_perm
    (fun a b => decide (a.position ≤ b.position)) (ecPatterns fi text PATTERNS_order [])
  constructor
  · rw [extract_citations, hperm.countP_eq, ecPatterns_countP]
    rcases hm₁ with ⟨pos, hpos⟩
    have hany : PATTERNS_order.any
        (fun p => (fi p text).any (fun m => m.2 = t)) = true :=
      List.any_eq_true.mpr ⟨p₁, hp₁,
        List.any_eq_true.mpr ⟨(pos, t), hpos, by simp⟩⟩
    simp [hany]
  · intro c hc hct
    have hc' : c ∈ ecPatterns fi text PATTERNS_order [] :=
      hperm.mem_iff.mp hc
    rcases ecPatterns_mem fi text PATTERNS_order [] c hc' with ⟨_, hfind⟩
    rw [first_matching_pattern, ← hct, hfind]
    rfl

/-- C10, witness: on text matched by both `us_reporter` and
`state_reporter`, the citation `"123 U.S. 456"` is reported exactly once,
and every report of it carries the first matching pattern in the fixed
order. -/
theorem extract_citations_dedup_first_type_witness :
    List.countP (fun c => c.text = "123 U.S. 456")
      (extract_citations us_state_fi "In Smith v. Jones, 123 U.S. 456 (1990).") = 1 ∧
    ∀ c ∈ extract_citations us_state_fi "In Smith v. Jones, 123 U.S. 456 (1990).",
      c.text = "123 U.S. 456" →
        c.ctype = first_matching_pattern us_state_fi
          "In Smith v. Jones, 123 U.S. 456 (1990)." "123 U.S. 456" :=
  extract_citations_dedup_first_type us_state_fi
    "In Smith v. Jones, 123 U.S. 456 (1990)." "123 U.S. 456"
    "us_reporter" "state_reporter" (by decide) (by decide) (by decide)
    ⟨19, by decide⟩ ⟨19, by decide⟩
